import Mathlib

/-!
Shallow embedding of `src/comp-game-base-ts.ts`, the `GameBase` component.

The component is a thin glue layer over a host game engine: URL templating
(`urlOf`), two configuration guards (`checkHostAndDir`), audio loading and
playback keyed by a capitalized name (`loadAudio`, `loadAudios`, `playAudio`,
`playAudioPromise`), skeletal-animation option building (`loadDragonBones`),
a lifecycle hook (`onLoad`) and two setters.

Modelling conventions:
* The host engine (`cc.loaderp`, `cc.audioEngine`, `cc.director`) is an
  external collaborator; it is represented by an abstract `Engine` record of
  functions, parametric in the type `Clip` of loaded audio clips.  A loader
  promise that may reject is a function returning `Option`.
* Thrown JS errors become `Except String`; the error string is the message of
  the thrown `Error`.
* The dynamic properties the component writes
  (`this["_$audio" + capitalize key] = clip`) become a function-valued field
  `audioSlots : String → Option Clip`, updated pointwise exactly like a JS
  property assignment.
* Promise chains are sequentialized: the callbacks attached to a loader
  promise run, in attachment order, when the promise resolves, and are
  skipped when it rejects.
* An omitted optional argument of the TS source is an explicit `Option`
  argument here (`none` = omitted), resolved with the source's default.
-/

namespace GameBaseTS

/-- Modelled from the spec: `strings.capitalize` comes from the sibling module
`util-strings/util-strings`, which is not under `src/`; the spec only speaks of
a key-casing convention for audio keys.  Modelled as the usual JS capitalize:
the first character is uppercased, the rest of the string is kept. -/
def capitalize (s : String) : String :=
  match s.data with
  | [] => ""
  | c :: rest => String.mk (c.toUpper :: rest)

/-- Modelled from the spec: `strings.parseQuery` comes from the sibling module
`util-strings/util-strings`, which is not under `src/`; the spec only says
`onLoad` wires query-string state.  Modelled as splitting a `?a=b&c=d` query
string into key/value pairs. -/
def parseQuery (s : String) : List (String × String) :=
  let body := if s.startsWith "?" then s.drop 1 else s
  (body.splitOn "&").filterMap fun kv =>
    match kv.splitOn "=" with
    | [k] => some (k, "")
    | [k, v] => some (k, v)
    | _ => none

/-- The engine-side collision manager returned by
`cc.director.getCollisionManager()`: only the two flags `onLoad` touches are
modelled. -/
structure CollisionManager where
  enabled : Bool
  enabledDebugDraw : Bool
  deriving DecidableEq, Repr

/-- The host engine surface the component calls into, parametric in the clip
type.  `load u = none` (resp. `loadAll us = none`) models a rejected loader
promise. -/
structure Engine (Clip : Type) where
  load : String → Option Clip
  loadAll : List (List String) → Option (List Clip)
  play : Clip → Int

/-- The observable state of a `GameBase` component: the four `@property`
fields with their initializers, the `_env` assignment (recorded as a flag),
`_query`, and the dynamically written `_$audio…` slots. -/
structure GameBase (Clip : Type) where
  collisionSystem : Bool := false
  debugCollision : Bool := false
  resourceHost : String := ""
  directory : String := ""
  envSet : Bool := false
  query : List (String × String) := []
  audioSlots : String → Option Clip := fun _ => none

/-- A freshly constructed component, before any property injection: all
fields at their initializers, no audio slot written. -/
def initialGameBase (Clip : Type) : GameBase Clip := {}

/-- Message of the error thrown when `resourceHost` is unset. -/
def hostErrMsg : String := "Please set resource host property of GameBase!"

/-- Message of the error thrown when `directory` is unset. -/
def dirErrMsg : String := "Please set directory first!"

/-- private checkHostAndDir(): throws when `resourceHost` is falsy (the empty
string), then when `directory` is falsy. -/
def checkHostAndDir {Clip : Type} (g : GameBase Clip) : Except String Unit :=
  if g.resourceHost = "" then .error hostErrMsg
  else if g.directory = "" then .error dirErrMsg
  else .ok ()

/-- urlOf(filename, dir = this.directory): guard, then the template string
resourceHost ++ "/" ++ dir ++ "/" ++ filename.  `dir = none` is the omitted
argument, filled with `this.directory`. -/
def urlOf {Clip : Type} (g : GameBase Clip) (filename : String)
    (dir : Option String) : Except String String := do
  checkHostAndDir g
  return g.resourceHost ++ "/" ++ dir.getD g.directory ++ "/" ++ filename

/-- Property assignment this["_$audio" ++ capitalize key] = clip. -/
def storeClip {Clip : Type} (g : GameBase Clip) (key : String) (clip : Clip) :
    GameBase Clip :=
  { g with
    audioSlots := fun k =>
      if k = "_$audio" ++ capitalize key then some clip else g.audioSlots k }

/-- loadAudio(filename, key = ''): guard, load `urlOf filename`, and when
`key` is truthy attach a callback storing the clip under
"_$audio" ++ capitalize key.  The result is the resolved clip (or `none` when
the load promise rejected) together with the component state after the
attached callback ran. -/
def loadAudio {Clip : Type} (eng : Engine Clip) (g : GameBase Clip)
    (filename : String) (key : String) :
    Except String (Option Clip × GameBase Clip) := do
  checkHostAndDir g
  let url ← urlOf g filename none
  match eng.load url with
  | none => return (none, g)
  | some clip =>
      if key ≠ "" then return (some clip, storeClip g key clip)
      else return (some clip, g)

/-- Resolves each filename to the singleton list holding its URL, left to
right, propagating the first thrown error:
filenames.map(it => [this.urlOf(it)]) under a throwing urlOf. -/
def mapUrls {Clip : Type} (g : GameBase Clip) :
    List String → Except String (List (List String))
  | [] => .ok []
  | it :: rest => do
    let u ← urlOf g it none
    let us ← mapUrls g rest
    return [u] :: us

/-- loadAudios(filenames) on the array branch:
cc.loaderp.loadAll(filenames.map(it => [this.urlOf(it)])).  The guard runs,
each filename is resolved to a singleton list holding its URL, and the engine
answers with the list of clips (or `none` for a rejected promise).  No slot is
written on this branch. -/
def loadAudiosList {Clip : Type} (eng : Engine Clip) (g : GameBase Clip)
    (filenames : List String) : Except String (Option (List Clip)) := do
  checkHostAndDir g
  let urls ← mapUrls g filenames
  return eng.loadAll urls

/-- Stores clip `i` of `clips` under "_$audio" ++ capitalize (keys[i]):
the body of clips.forEach((clip, i) => …) on the record branch of
`loadAudios`. -/
def storeClips {Clip : Type} (g : GameBase Clip) (keys : List String)
    (clips : List Clip) : GameBase Clip :=
  (clips.zip keys).foldl (fun acc p => storeClip acc p.2 p.1) g

/-- loadAudios(filenames) on the record branch: guard, recurse on the list of
values, then on resolution store clip `i` under the capitalized `i`-th key.
The record is its ordered key/value list; the JS promise resolves with the
(unit) result of the forEach. -/
def loadAudiosRecord {Clip : Type} (eng : Engine Clip) (g : GameBase Clip)
    (record : List (String × String)) :
    Except String (Option Unit × GameBase Clip) := do
  checkHostAndDir g
  let keys := record.map Prod.fst
  let values := record.map Prod.snd
  let res ← loadAudiosList eng g values
  match res with
  | none => return (none, g)
  | some clips => return (some (), storeClips g keys clips)

/-- playAudio(audioName): key = capitalize audioName, then the slot lookup
this["_$audio" ++ capitalize key]; a falsy (absent) slot yields -1, otherwise
cc.audioEngine.play(clip). -/
def playAudio {Clip : Type} (eng : Engine Clip) (g : GameBase Clip)
    (audioName : String) : Int :=
  let key := capitalize audioName
  match g.audioSlots ("_$audio" ++ capitalize key) with
  | none => -1
  | some clip => eng.play clip

/-- Outcome of `playAudioPromise`: the promise rejects with a message, or the
inner load promise rejected (so the retry callback never ran), or the promise
is the one resolved by the finish callback of audio id `id`. -/
inductive PlayOutcome where
  | rejected (msg : String)
  | loadRejected
  | finished (id : Int)
  deriving DecidableEq, Repr

/-- playAudioPromise(audioName, tryLoad = false, key = audioName,
ext = '.mp3'): play under `key`; on a negative id either reject with
audioName ++ " not found!" (tryLoad falsy) or load audioName ++ ext under
`key` and retry with all arguments at their defaults.  `key = none` is the
omitted argument, filled with `audioName`. -/
def playAudioPromise {Clip : Type} (eng : Engine Clip) (g : GameBase Clip)
    (audioName : String) (tryLoad : Bool) (key : Option String) (ext : String) :
    Except String (PlayOutcome × GameBase Clip) :=
  let k := key.getD audioName
  let id := playAudio eng g k
  if id < 0 then
    if tryLoad = false then .ok (.rejected (audioName ++ " not found!"), g)
    else do
      let (clipOpt, g') ← loadAudio eng g (audioName ++ ext) k
      match clipOpt with
      | none => return (.loadRejected, g')
      | some _ => playAudioPromise eng g' audioName false none ".mp3"
  else
    .ok (.finished id, g)
  termination_by (if tryLoad then 1 else 0)
  decreasing_by simp_all

/-- The options record cc.loaderp.IDragonBoneLoadOptions built by
`loadDragonBones`. -/
structure DragonBoneLoadOptions where
  skeUrl : String
  texJsonUrl : String
  texUrl : String
  armatureName : String
  animationName : String
  times : Int
  deriving DecidableEq, Repr

/-- loadDragonBones(name, node, armature, animation, times = -1): builds the
options object handed to cc.loaderp.loadDragonBone.  The engine call itself is
external; the observable is the options record.  `times = none` is the omitted
argument, filled with -1. -/
def loadDragonBones {Clip : Type} (g : GameBase Clip) (name : String)
    (armature : String) (animation : String) (times : Option Int) :
    Except String DragonBoneLoadOptions := do
  let ske ← urlOf g (name ++ "_ske.json") none
  let texJson ← urlOf g (name ++ "_tex.json") none
  let tex ← urlOf g (name ++ "_tex.png") none
  return { skeUrl := ske, texJsonUrl := texJson, texUrl := tex,
           armatureName := armature, animationName := animation,
           times := times.getD (-1) }

/-- setResourceHost(host): writes the property and returns `this` (in the
pure embedding: the updated state, on which further calls chain). -/
def setResourceHost {Clip : Type} (g : GameBase Clip) (host : String) :
    GameBase Clip :=
  { g with resourceHost := host }

/-- setDirectory(dir): writes the property and returns `this`. -/
def setDirectory {Clip : Type} (g : GameBase Clip) (dir : String) :
    GameBase Clip :=
  { g with directory := dir }

/-- onLoad(): records the env module, parses location.search into `_query`,
and when cc.director.getCollisionManager() is non-null copies the two
component flags onto it.  `locationSearch` is the current location's query
string; `cm` the manager the director returns (`none` = null/undefined). -/
def onLoad {Clip : Type} (g : GameBase Clip) (locationSearch : String)
    (cm : Option CollisionManager) :
    GameBase Clip × Option CollisionManager :=
  let g' := { g with envSet := true, query := parseQuery locationSearch }
  match cm with
  | none => (g', none)
  | some m =>
      (g', some { m with enabled := g.collisionSystem,
                         enabledDebugDraw := g.debugCollision })

/-! Concrete fixtures used to evaluate the definitions at specific inputs. -/

/-- A concrete engine over `Nat` clips: every single load resolves with clip
7, every batch load with clips 10 and 20, and playing clip `c` returns audio
id `c`. -/
def natTestEngine : Engine Nat where
  load := fun _ => some 7
  loadAll := fun _ => some [10, 20]
  play := fun c => (c : Int)

/-- A component with resource host "h" and directory "d" set and no audio
slot written. -/
def hostedBase : GameBase Nat := { resourceHost := "h", directory := "d" }

/-! Helper lemmas. -/

theorem ok_bind {ε α β : Type} (a : α) (f : α → Except ε β) :
    (Except.ok a : Except ε α) >>= f = f a := rfl

theorem error_bind {ε α β : Type} (e : ε) (f : α → Except ε β) :
    (Except.error e : Except ε α) >>= f = Except.error e := rfl

theorem pure_eq_ok {ε α : Type} (a : α) :
    (pure a : Except ε α) = Except.ok a := rfl

theorem char_toNat_ofNat_valid {n : Nat} (h : n.isValidChar) :
    (Char.ofNat n).toNat = n := by
  simp [Char.ofNat, dif_pos h, Char.ofNatAux, Char.toNat, UInt32.toNat,
    BitVec.toNat_ofNatLt]

theorem char_toUpper_idem (c : Char) : c.toUpper.toUpper = c.toUpper := by
  unfold Char.toUpper
  by_cases h : c.toNat ≥ 97 ∧ c.toNat ≤ 122
  · rw [if_pos h]
    have hv : (c.toNat - 32).isValidChar := by
      unfold Nat.isValidChar
      left
      omega
    have ht : (Char.ofNat (c.toNat - 32)).toNat = c.toNat - 32 :=
      char_toNat_ofNat_valid hv
    rw [ht, if_neg (by omega)]
  · rw [if_neg h, if_neg h]

theorem capitalize_idem (s : String) :
    capitalize (capitalize s) = capitalize s := by
  cases h : s.data with
  | nil =>
      have h0 : capitalize s = "" := by simp [capitalize, h]
      rw [h0]
      rfl
  | cons c rest =>
      have h1 : capitalize s = String.mk (c.toUpper :: rest) := by
        simp [capitalize, h]
      rw [h1]
      simp [capitalize, char_toUpper_idem]

theorem string_append_cancel_left {s t u : String} (h : s ++ t = s ++ u) :
    t = u := by
  apply String.ext
  have hd := congrArg String.data h
  simp only [String.data_append] at hd
  exact List.append_cancel_left hd

theorem storeClip_get_same {Clip : Type} (g : GameBase Clip) (k : String)
    (c : Clip) :
    (storeClip g k c).audioSlots ("_$audio" ++ capitalize k) = some c := by
  simp [storeClip]

theorem storeClip_get_ne {Clip : Type} (g : GameBase Clip) (k addr : String)
    (c : Clip) (h : addr ≠ "_$audio" ++ capitalize k) :
    (storeClip g k c).audioSlots addr = g.audioSlots addr := by
  simp [storeClip, h]

theorem checkHostAndDir_ok {Clip : Type} (g : GameBase Clip)
    (hhost : g.resourceHost ≠ "") (hdir : g.directory ≠ "") :
    checkHostAndDir g = .ok () := by
  simp [checkHostAndDir, hhost, hdir]

theorem urlOf_none_ok {Clip : Type} (g : GameBase Clip)
    (hhost : g.resourceHost ≠ "") (hdir : g.directory ≠ "") (f : String) :
    urlOf g f none = .ok (g.resourceHost ++ "/" ++ g.directory ++ "/" ++ f) := by
  simp [urlOf, checkHostAndDir_ok g hhost hdir, ok_bind]

theorem mapUrls_ok {Clip : Type} (g : GameBase Clip)
    (hhost : g.resourceHost ≠ "") (hdir : g.directory ≠ "") :
    ∀ fs : List String,
      mapUrls g fs
        = .ok (fs.map fun v =>
            [g.resourceHost ++ "/" ++ g.directory ++ "/" ++ v])
  | [] => rfl
  | f :: rest => by
      simp [mapUrls, urlOf_none_ok g hhost hdir f, ok_bind,
        mapUrls_ok g hhost hdir rest]

theorem loadAudio_eq {Clip : Type} (eng : Engine Clip) (g : GameBase Clip)
    (filename key : String)
    (hhost : g.resourceHost ≠ "") (hdir : g.directory ≠ "") :
    loadAudio eng g filename key =
      match eng.load (g.resourceHost ++ "/" ++ g.directory ++ "/" ++ filename)
      with
      | none => .ok (none, g)
      | some clip =>
          if key ≠ "" then .ok (some clip, storeClip g key clip)
          else .ok (some clip, g) := by
  simp [loadAudio, checkHostAndDir_ok g hhost hdir,
    urlOf_none_ok g hhost hdir filename, ok_bind, pure_eq_ok]

theorem loadAudiosList_eq {Clip : Type} (eng : Engine Clip)
    (g : GameBase Clip) (fs : List String)
    (hhost : g.resourceHost ≠ "") (hdir : g.directory ≠ "") :
    loadAudiosList eng g fs
      = .ok (eng.loadAll (fs.map fun v =>
          [g.resourceHost ++ "/" ++ g.directory ++ "/" ++ v])) := by
  simp [loadAudiosList, checkHostAndDir_ok g hhost hdir, ok_bind,
    mapUrls_ok g hhost hdir fs]

theorem loadAudiosRecord_eq {Clip : Type} (eng : Engine Clip)
    (g : GameBase Clip) (r : List (String × String))
    (hhost : g.resourceHost ≠ "") (hdir : g.directory ≠ "") :
    loadAudiosRecord eng g r =
      match eng.loadAll (r.map fun kv =>
          [g.resourceHost ++ "/" ++ g.directory ++ "/" ++ kv.2]) with
      | none => .ok (none, g)
      | some clips => .ok (some (), storeClips g (r.map Prod.fst) clips) := by
  simp [loadAudiosRecord, checkHostAndDir_ok g hhost hdir, ok_bind,
    loadAudiosList_eq eng g (r.map Prod.snd) hhost hdir, List.map_map,
    Function.comp_def, pure_eq_ok]

/-- C1: when resourceHost and directory are both non-empty, urlOf(f, d)
returns exactly resourceHost ++ "/" ++ d ++ "/" ++ f, and urlOf(f) with the
dir argument omitted uses the component's directory property in place of
d. -/
theorem urlOf_builds_host_dir_filename {Clip : Type} (g : GameBase Clip)
    (f d : String) (hhost : g.resourceHost ≠ "") (hdir : g.directory ≠ "") :
    urlOf g f (some d) = .ok (g.resourceHost ++ "/" ++ d ++ "/" ++ f) ∧
    urlOf g f none = .ok (g.resourceHost ++ "/" ++ g.directory ++ "/" ++ f) := by
  have hc : checkHostAndDir g = .ok () := by
    simp [checkHostAndDir, hhost, hdir]
  constructor <;> simp [urlOf, hc, ok_bind]

theorem urlOf_builds_host_dir_filename_witness :
    urlOf hostedBase "f.mp3" (some "e") = .ok "h/e/f.mp3" ∧
    urlOf hostedBase "f.mp3" none = .ok "h/d/f.mp3" := by
  have h := urlOf_builds_host_dir_filename hostedBase "f.mp3" "e"
    (by decide) (by decide)
  exact ⟨h.1, h.2⟩

/-- C10 counterexample: on a component whose resourceHost and directory are
both empty, urlOf with a non-empty explicit dir argument throws the
resource-host error, not the directory error, so "throws the directory
configuration error whenever the directory property is empty" fails as
stated. -/
theorem urlOf_explicit_dir_cex :
    @urlOf Unit (initialGameBase Unit) "f.mp3" (some "sub")
      = .error hostErrMsg ∧ hostErrMsg ≠ dirErrMsg := by
  exact ⟨rfl, by decide⟩

/-- C10 (amended): when resourceHost is non-empty and the directory property
is empty, urlOf(f, d) throws the directory configuration error for every
(in particular every non-empty) explicit dir argument d: the guard inspects
the two properties only, never the dir argument. -/
theorem urlOf_explicit_dir_guard {Clip : Type} (g : GameBase Clip)
    (f d : String) (_hd : d ≠ "") (hhost : g.resourceHost ≠ "")
    (hdir : g.directory = "") :
    urlOf g f (some d) = .error dirErrMsg := by
  have hc : checkHostAndDir g = .error dirErrMsg := by
    simp [checkHostAndDir, hhost, hdir]
  simp [urlOf, hc, error_bind]

theorem urlOf_explicit_dir_guard_witness :
    @urlOf Unit { resourceHost := "h" } "f.mp3" (some "sub")
      = .error dirErrMsg :=
  urlOf_explicit_dir_guard { resourceHost := "h" } "f.mp3" "sub"
    (by decide) (by decide) rfl

/-- C8: setResourceHost writes only resourceHost and setDirectory writes only
directory; each returns the component (here: the updated state), so the two
setters chain. -/
theorem setters_set_only_their_field {Clip : Type} (g : GameBase Clip)
    (h d : String) :
    (setResourceHost g h).resourceHost = h ∧
    (setResourceHost g h).directory = g.directory ∧
    (setResourceHost g h).collisionSystem = g.collisionSystem ∧
    (setResourceHost g h).debugCollision = g.debugCollision ∧
    (setResourceHost g h).query = g.query ∧
    (setResourceHost g h).envSet = g.envSet ∧
    (setResourceHost g h).audioSlots = g.audioSlots ∧
    (setDirectory g d).directory = d ∧
    (setDirectory g d).resourceHost = g.resourceHost ∧
    (setDirectory g d).collisionSystem = g.collisionSystem ∧
    (setDirectory g d).debugCollision = g.debugCollision ∧
    (setDirectory g d).query = g.query ∧
    (setDirectory g d).envSet = g.envSet ∧
    (setDirectory g d).audioSlots = g.audioSlots ∧
    setDirectory (setResourceHost g h) d
      = { g with resourceHost := h, directory := d } :=
  ⟨rfl, rfl, rfl, rfl, rfl, rfl, rfl, rfl, rfl, rfl, rfl, rfl, rfl, rfl, rfl⟩

/-- C6: after onLoad, a non-null collision manager carries the component's
collisionSystem and debugCollision flags; a null manager stays untouched and
onLoad still succeeds; in both cases _query is the parse of the location's
query string. -/
theorem onLoad_wires_collision_and_query {Clip : Type} (g : GameBase Clip)
    (ls : String) (m : CollisionManager) :
    (onLoad g ls (some m)).2
      = some { enabled := g.collisionSystem,
               enabledDebugDraw := g.debugCollision } ∧
    (onLoad g ls (some m)).1.query = parseQuery ls ∧
    (onLoad g ls none).2 = none ∧
    (onLoad g ls none).1.query = parseQuery ls :=
  ⟨rfl, rfl, rfl, rfl⟩

/-- C9: when no clip is stored under "_$audio" ++ capitalize (capitalize n)
— in particular on a fresh component — playAudio n returns -1, for every
engine (so without the audio engine being consulted) and without touching
component state (playAudio writes nothing). -/
theorem playAudio_missing_slot {Clip : Type} (eng : Engine Clip)
    (g : GameBase Clip) (n : String)
    (hmiss : g.audioSlots ("_$audio" ++ capitalize (capitalize n)) = none) :
    playAudio eng g n = -1 ∧ playAudio eng (initialGameBase Clip) n = -1 := by
  constructor
  · simp [playAudio, hmiss]
  · rfl

theorem playAudio_missing_slot_witness :
    (initialGameBase Nat).audioSlots
      ("_$audio" ++ capitalize (capitalize "x")) = none ∧
    playAudio natTestEngine (initialGameBase Nat) "x" = -1 :=
  ⟨rfl, (playAudio_missing_slot natTestEngine (initialGameBase Nat) "x" rfl).1⟩

/-- C2: urlOf, loadAudio, loadAudiosList and loadAudiosRecord throw exactly
when resourceHost or directory is empty, via the shared guard: an empty
resourceHost yields the resource-host error; otherwise an empty directory
yields the directory error; with both non-empty no error is thrown, and no
other error ever is. -/
theorem config_errors_exactly {Clip : Type} (eng : Engine Clip)
    (g : GameBase Clip) (f k : String) (d : Option String)
    (fs : List String) (r : List (String × String)) :
    (g.resourceHost = "" →
      checkHostAndDir g = .error hostErrMsg ∧
      urlOf g f d = .error hostErrMsg ∧
      loadAudio eng g f k = .error hostErrMsg ∧
      loadAudiosList eng g fs = .error hostErrMsg ∧
      loadAudiosRecord eng g r = .error hostErrMsg) ∧
    (g.resourceHost ≠ "" → g.directory = "" →
      checkHostAndDir g = .error dirErrMsg ∧
      urlOf g f d = .error dirErrMsg ∧
      loadAudio eng g f k = .error dirErrMsg ∧
      loadAudiosList eng g fs = .error dirErrMsg ∧
      loadAudiosRecord eng g r = .error dirErrMsg) ∧
    (g.resourceHost ≠ "" → g.directory ≠ "" →
      checkHostAndDir g = .ok () ∧
      (∃ u, urlOf g f d = .ok u) ∧
      (∃ x, loadAudio eng g f k = .ok x) ∧
      (∃ y, loadAudiosList eng g fs = .ok y) ∧
      (∃ z, loadAudiosRecord eng g r = .ok z)) := by
  refine ⟨fun h1 => ?_, fun h1 h2 => ?_, fun h1 h2 => ?_⟩
  · have hc : checkHostAndDir g = .error hostErrMsg := by
      simp [checkHostAndDir, h1]
    exact ⟨hc,
      by simp [urlOf, hc, error_bind],
      by simp [loadAudio, hc, error_bind],
      by simp [loadAudiosList, hc, error_bind],
      by simp [loadAudiosRecord, loadAudiosList, hc, error_bind]⟩
  · have hc : checkHostAndDir g = .error dirErrMsg := by
      simp [checkHostAndDir, h1, h2]
    exact ⟨hc,
      by simp [urlOf, hc, error_bind],
      by simp [loadAudio, hc, error_bind],
      by simp [loadAudiosList, hc, error_bind],
      by simp [loadAudiosRecord, loadAudiosList, hc, error_bind]⟩
  · refine ⟨checkHostAndDir_ok g h1 h2,
      ⟨g.resourceHost ++ "/" ++ d.getD g.directory ++ "/" ++ f,
        by simp [urlOf, checkHostAndDir_ok g h1 h2, ok_bind]⟩, ?_, ?_, ?_⟩
    · rw [loadAudio_eq eng g f k h1 h2]
      cases eng.load (g.resourceHost ++ "/" ++ g.directory ++ "/" ++ f) with
      | none => exact ⟨_, rfl⟩
      | some c =>
          by_cases hk : k = ""
          · simp [hk]
          · simp [hk]
    · exact ⟨_, loadAudiosList_eq eng g fs h1 h2⟩
    · rw [loadAudiosRecord_eq eng g r h1 h2]
      cases eng.loadAll (r.map fun kv =>
          [g.resourceHost ++ "/" ++ g.directory ++ "/" ++ kv.2]) with
      | none => exact ⟨_, rfl⟩
      | some clips => exact ⟨_, rfl⟩

theorem config_errors_exactly_witness :
    checkHostAndDir (initialGameBase Nat) = .error hostErrMsg ∧
    checkHostAndDir (setResourceHost (initialGameBase Nat) "h")
      = .error dirErrMsg ∧
    checkHostAndDir hostedBase = .ok () :=
  ⟨((config_errors_exactly natTestEngine (initialGameBase Nat)
      "f" "" none [] []).1 rfl).1,
   ((config_errors_exactly natTestEngine
      (setResourceHost (initialGameBase Nat) "h")
      "f" "" none [] []).2.1 (by decide) rfl).1,
   ((config_errors_exactly natTestEngine hostedBase
      "f" "" none [] []).2.2 (by decide) (by decide)).1⟩

/-- C3: after loadAudio(filename, k) resolves with clip c (k non-empty), the
slot playAudio reads — keyed by the doubly capitalized k — is exactly the
slot loadAudio wrote, and playAudio k returns the id obtained by playing c
rather than the missing-slot -1: capitalize is idempotent, so the double
capitalization in the lookup is harmless. -/
theorem loadAudio_playAudio_roundtrip {Clip : Type} (eng : Engine Clip)
    (g : GameBase Clip) (filename k : String) (c : Clip)
    (hhost : g.resourceHost ≠ "") (hdir : g.directory ≠ "") (hk : k ≠ "")
    (hload : eng.load (g.resourceHost ++ "/" ++ g.directory ++ "/" ++ filename)
      = some c) :
    loadAudio eng g filename k = .ok (some c, storeClip g k c) ∧
    (storeClip g k c).audioSlots ("_$audio" ++ capitalize (capitalize k))
      = some c ∧
    playAudio eng (storeClip g k c) k = eng.play c := by
  have h2 : (storeClip g k c).audioSlots
      ("_$audio" ++ capitalize (capitalize k)) = some c := by
    rw [capitalize_idem]
    exact storeClip_get_same g k c
  refine ⟨?_, h2, ?_⟩
  · rw [loadAudio_eq eng g filename k hhost hdir, hload]
    simp [hk]
  · simp [playAudio, h2]

theorem loadAudio_playAudio_roundtrip_witness :
    loadAudio natTestEngine hostedBase "red.mp3" "red"
      = .ok (some 7, storeClip hostedBase "red" 7) ∧
    playAudio natTestEngine (storeClip hostedBase "red" 7) "red" = 7 := by
  have h := loadAudio_playAudio_roundtrip natTestEngine hostedBase
    "red.mp3" "red" 7 (by decide) (by decide) (by decide) rfl
  exact ⟨h.1, h.2.2⟩

/-- C7: loadDragonBones hands the engine loader an options record whose three
URLs are resourceHost/directory/name with the _ske.json, _tex.json and
_tex.png suffixes, with the given armature name, animation name and times,
times defaulting to -1 when omitted. -/
theorem loadDragonBones_builds_options {Clip : Type} (g : GameBase Clip)
    (n a m : String) (t : Int)
    (hhost : g.resourceHost ≠ "") (hdir : g.directory ≠ "") :
    loadDragonBones g n a m (some t) = .ok
      { skeUrl := g.resourceHost ++ "/" ++ g.directory ++ "/" ++ n
          ++ "_ske.json",
        texJsonUrl := g.resourceHost ++ "/" ++ g.directory ++ "/" ++ n
          ++ "_tex.json",
        texUrl := g.resourceHost ++ "/" ++ g.directory ++ "/" ++ n
          ++ "_tex.png",
        armatureName := a, animationName := m, times := t } ∧
    loadDragonBones g n a m none = .ok
      { skeUrl := g.resourceHost ++ "/" ++ g.directory ++ "/" ++ n
          ++ "_ske.json",
        texJsonUrl := g.resourceHost ++ "/" ++ g.directory ++ "/" ++ n
          ++ "_tex.json",
        texUrl := g.resourceHost ++ "/" ++ g.directory ++ "/" ++ n
          ++ "_tex.png",
        armatureName := a, animationName := m, times := -1 } := by
  have hu := urlOf_none_ok g hhost hdir
  constructor <;>
    simp [loadDragonBones, hu, ok_bind, pure_eq_ok, String.append_assoc]

theorem loadDragonBones_builds_options_witness :
    loadDragonBones hostedBase "hero" "Armature" "walk" (some 3) = .ok
      { skeUrl := "h/d/hero_ske.json", texJsonUrl := "h/d/hero_tex.json",
        texUrl := "h/d/hero_tex.png", armatureName := "Armature",
        animationName := "walk", times := 3 } ∧
    (loadDragonBones hostedBase "hero" "Armature" "walk" none).map
        DragonBoneLoadOptions.times = .ok (-1) := by
  have h := loadDragonBones_builds_options hostedBase "hero" "Armature"
    "walk" 3 (by decide) (by decide)
  refine ⟨h.1, ?_⟩
  rw [h.2]
  rfl

theorem storeClips_nil {Clip : Type} (g : GameBase Clip)
    (keys : List String) : storeClips g keys [] = g := by
  cases keys <;> rfl

theorem storeClips_cons {Clip : Type} (g : GameBase Clip) (k : String)
    (ks : List String) (c : Clip) (cs : List Clip) :
    storeClips g (k :: ks) (c :: cs) = storeClips (storeClip g k c) ks cs :=
  rfl

theorem storeClips_preserve {Clip : Type} (addr : String) :
    ∀ (keys : List String) (clips : List Clip) (g : GameBase Clip),
      (∀ k ∈ keys, addr ≠ "_$audio" ++ capitalize k) →
      (storeClips g keys clips).audioSlots addr = g.audioSlots addr
  | [], clips, g, _ => by cases clips <;> rfl
  | _ :: _, [], _, _ => rfl
  | k :: ks, c :: cs, g, h => by
      rw [storeClips_cons,
        storeClips_preserve addr ks cs (storeClip g k c)
          (fun k' hk' => h k' (List.mem_cons_of_mem _ hk'))]
      exact storeClip_get_ne g k addr c (h k (List.mem_cons_self _ _))

theorem storeClips_get {Clip : Type} :
    ∀ (keys : List String) (clips : List Clip) (g : GameBase Clip) (i : Nat)
      (hi : i < keys.length) (hlen : clips.length = keys.length),
      (keys.map capitalize).Nodup →
      (storeClips g keys clips).audioSlots
          ("_$audio" ++ capitalize (keys.get ⟨i, hi⟩))
        = some (clips.get ⟨i, by omega⟩)
  | [], _, _, i, hi, _, _ => absurd hi (by simp)
  | _ :: ks, [], _, _, _, hlen, _ => by simp at hlen
  | k :: ks, c :: cs, g, 0, hi, hlen, hnodup => by
      have hnot : capitalize k ∉ ks.map capitalize :=
        (List.nodup_cons.mp (by simpa using hnodup)).1
      have hne : ∀ k' ∈ ks,
          ("_$audio" ++ capitalize k) ≠ "_$audio" ++ capitalize k' := by
        intro k' hk' heq
        have hmem := List.mem_map_of_mem capitalize hk'
        rw [← string_append_cancel_left heq] at hmem
        exact hnot hmem
      rw [storeClips_cons]
      show (storeClips (storeClip g k c) ks cs).audioSlots
          ("_$audio" ++ capitalize k) = some c
      rw [storeClips_preserve ("_$audio" ++ capitalize k) ks cs
        (storeClip g k c) hne]
      exact storeClip_get_same g k c
  | k :: ks, c :: cs, g, i + 1, hi, hlen, hnodup => by
      rw [storeClips_cons]
      exact storeClips_get ks cs (storeClip g k c) i (by simpa using hi)
        (by simpa using hlen)
        (List.nodup_cons.mp (by simpa using hnodup)).2

/-- C4 counterexample: the record keys "red" and "Red" are distinct, yet both
capitalize to "Red", so both clips land in slot "_$audioRed" and the later
clip 20 (loaded from "b.mp3") overwrites the earlier clip 10 (loaded from
"a.mp3", the value of key "red"); playAudio "red" then returns 20, not the
id 10 of the clip loaded from r["red"]. -/
theorem loadAudiosRecord_collision_cex :
    (loadAudiosRecord natTestEngine hostedBase
        [("red", "a.mp3"), ("Red", "b.mp3")]).map
      (fun p => playAudio natTestEngine p.2 "red") = .ok 20 ∧
    natTestEngine.play 10 = 10 ∧ ((20 : Int) ≠ 10) :=
  ⟨rfl, rfl, by decide⟩

/-- C4 (amended): loadAudios on a record loads each value's URL in key order
and, on resolution, stores clip i under "_$audio" ++ capitalize (key i);
provided the capitalized keys are pairwise distinct, a subsequent
playAudio(key i) plays clip i, the clip loaded from r[key i].  (When two keys
share a capitalization the later one overwrites the shared slot.) -/
theorem loadAudiosRecord_stores_by_key {Clip : Type} (eng : Engine Clip)
    (g : GameBase Clip) (r : List (String × String)) (clips : List Clip)
    (hhost : g.resourceHost ≠ "") (hdir : g.directory ≠ "")
    (hload : eng.loadAll (r.map fun kv =>
        [g.resourceHost ++ "/" ++ g.directory ++ "/" ++ kv.2]) = some clips)
    (hlen : clips.length = r.length)
    (hnodup : ((r.map Prod.fst).map capitalize).Nodup) :
    loadAudiosRecord eng g r
      = .ok (some (), storeClips g (r.map Prod.fst) clips) ∧
    ∀ i (hi : i < r.length),
      playAudio eng (storeClips g (r.map Prod.fst) clips) (r.get ⟨i, hi⟩).1
        = eng.play (clips.get ⟨i, by omega⟩) := by
  constructor
  · rw [loadAudiosRecord_eq eng g r hhost hdir, hload]
  · intro i hi
    have hkey : (r.map Prod.fst).get ⟨i, by simpa using hi⟩
        = (r.get ⟨i, hi⟩).1 := by simp
    have hslot := storeClips_get (r.map Prod.fst) clips g i
      (by simpa using hi) (by simpa using hlen) hnodup
    rw [hkey] at hslot
    simp only [List.get_eq_getElem] at hslot
    simp [playAudio, capitalize_idem, hslot]

theorem loadAudiosRecord_stores_by_key_witness :
    loadAudiosRecord natTestEngine hostedBase
        [("red", "a.mp3"), ("green", "b.mp3")]
      = .ok (some (), storeClips hostedBase ["red", "green"] [10, 20]) ∧
    playAudio natTestEngine
        (storeClips hostedBase ["red", "green"] [10, 20]) "green" = 20 := by
  have h := loadAudiosRecord_stores_by_key natTestEngine hostedBase
    [("red", "a.mp3"), ("green", "b.mp3")] [10, 20]
    (by decide) (by decide) rfl (by decide) (by decide)
  refine ⟨h.1, ?_⟩
  have h2 := h.2 1 (by decide)
  simpa using h2

/-- C5: when playAudio under the effective key is negative, playAudioPromise
with tryLoad left false rejects with audioName ++ " not found!" and leaves
the component untouched; with tryLoad true it instead loads
audioName ++ ext under the effective key (storing the resolved clip there)
and then retries playback with every argument back at its default. -/
theorem playAudioPromise_rejects_or_retries {Clip : Type} (eng : Engine Clip)
    (g : GameBase Clip) (audioName ext : String) (key : Option String)
    (hmiss : playAudio eng g (key.getD audioName) < 0) :
    playAudioPromise eng g audioName false key ext
      = .ok (.rejected (audioName ++ " not found!"), g) ∧
    (∀ c : Clip, g.resourceHost ≠ "" → g.directory ≠ "" →
      key.getD audioName ≠ "" →
      eng.load (g.resourceHost ++ "/" ++ g.directory ++ "/"
          ++ (audioName ++ ext)) = some c →
      playAudioPromise eng g audioName true key ext
        = playAudioPromise eng (storeClip g (key.getD audioName) c)
            audioName false none ".mp3") := by
  constructor
  · rw [playAudioPromise]
    simp [hmiss]
  · intro c hhost hdir hk hload
    have hla : loadAudio eng g (audioName ++ ext) (key.getD audioName)
        = .ok (some c, storeClip g (key.getD audioName) c) := by
      rw [loadAudio_eq eng g (audioName ++ ext) (key.getD audioName)
        hhost hdir, hload]
      simp [hk]
    rw [playAudioPromise]
    simp [hmiss, hla, ok_bind]

theorem playAudioPromise_rejects_or_retries_witness :
    playAudioPromise natTestEngine hostedBase "boom" false none ".mp3"
      = .ok (.rejected "boom not found!", hostedBase) ∧
    playAudioPromise natTestEngine hostedBase "boom" true none ".mp3"
      = playAudioPromise natTestEngine (storeClip hostedBase "boom" 7)
          "boom" false none ".mp3" := by
  have h := playAudioPromise_rejects_or_retries natTestEngine hostedBase
    "boom" ".mp3" none (by decide)
  exact ⟨h.1, h.2 7 (by decide) (by decide) (by decide) rfl⟩

end GameBaseTS
